import Mathlib

/-!
Shallow embedding of the workflow-orchestration core of
`sfs_agentic_drop_zone.py` (Agentic Drop Zone), together with theorems
settling the specification claims about it.

Conventions of the embedding:
* Python `datetime` timestamps are modelled as `Int` seconds; durations are
  the corresponding `Int` differences (`total_seconds`).
* The Python dict `active_workflows` is modelled as an association list
  `List (String × WorkflowMetrics)`; dict assignment replaces in place or
  appends, `pop` removes the key.  All states reachable from the empty
  monitor have pairwise-distinct keys, matching dict semantics.
* The HTTP transport of `httpx` is modelled by a Boolean oracle
  `transport_ok`: `true` means the POST succeeds, `false` means it raises
  (the exception is caught inside `send_notification`, which then returns
  `False`, so the embedding of `send_notification` is total).
* Fallible paths return `Option`; the source functions modelled here catch
  their internal exceptions, so their embeddings are total functions.
-/

/-- Embeds `NotificationLevel` (severity levels of the notification system). -/
inductive NotificationLevel where
  | info
  | warning
  | error
  | critical
deriving DecidableEq

/-- Embeds the `level_order` dict inside `NotificationService.send_notification`. -/
def level_order : NotificationLevel → Nat
  | .info => 0
  | .warning => 1
  | .error => 2
  | .critical => 3

/-- Embeds `NotificationConfig` (webhook url, enabled flag, minimum level, timeout). -/
structure NotificationConfig where
  webhook_url : Option String
  enabled : Bool
  min_level : NotificationLevel
  timeout : Int
deriving DecidableEq

/-- Python truthiness of `self.config.webhook_url`: a webhook target is
configured when the url is present and non-empty (`not self.config.webhook_url`
is true for both `None` and `""`). -/
def webhook_configured (cfg : NotificationConfig) : Bool :=
  match cfg.webhook_url with
  | none => false
  | some s => !s.isEmpty

/-- Result of one `send_notification` call: `delivered` is the Bool the Python
function returns, `attempted` records whether an HTTP POST was attempted. -/
structure SendResult where
  delivered : Bool
  attempted : Bool
deriving DecidableEq

/-- Embeds `NotificationService.send_notification`.  Returns `False` without
attempting a send when notifications are disabled or no webhook target is
configured, or when the level is below the configured minimum; otherwise
attempts the POST, returning `True` on success and `False` when the transport
raises (the exception is caught inside the function). -/
def send_notification (cfg : NotificationConfig) (transport_ok : Bool)
    (level : NotificationLevel) : SendResult :=
  if !cfg.enabled || !webhook_configured cfg then
    ⟨false, false⟩
  else if level_order level < level_order cfg.min_level then
    ⟨false, false⟩
  else
    ⟨transport_ok, true⟩

/-- Embeds `WorkflowStatus`. -/
inductive WorkflowStatus where
  | pending
  | running
  | completed
  | failed
  | timeout
deriving DecidableEq

/-- Embeds `WorkflowMetrics` (one workflow record). -/
structure WorkflowMetrics where
  workflow_id : String
  zone_name : String
  file_path : String
  agent : String
  model : String
  status : WorkflowStatus
  start_time : Int
  end_time : Option Int
  duration_seconds : Option Int
  error_message : Option String
deriving DecidableEq

/-- Association-list lookup, modelling `workflow_id in self.active_workflows` /
`self.active_workflows[workflow_id]`. -/
def alist_get (l : List (String × WorkflowMetrics)) (k : String) :
    Option WorkflowMetrics :=
  match l with
  | [] => none
  | (k1, v) :: rest => if k1 = k then some v else alist_get rest k

/-- Association-list key removal, modelling `self.active_workflows.pop(k)`
(a dict holds each key at most once; on such lists this removes exactly the
entry for `k`). -/
def alist_erase (l : List (String × WorkflowMetrics)) (k : String) :
    List (String × WorkflowMetrics) :=
  match l with
  | [] => []
  | (k1, v) :: rest =>
      if k1 = k then alist_erase rest k else (k1, v) :: alist_erase rest k

/-- Association-list assignment, modelling `self.active_workflows[k] = v`:
replaces the value in place when the key is present, appends otherwise. -/
def alist_set (l : List (String × WorkflowMetrics)) (k : String)
    (v : WorkflowMetrics) : List (String × WorkflowMetrics) :=
  if (alist_get l k).isSome then
    l.map (fun p => if p.1 = k then (k, v) else p)
  else
    l ++ [(k, v)]

/-- Embeds the mutable state of a `WorkflowMonitor` instance. -/
structure WorkflowMonitorState where
  active_workflows : List (String × WorkflowMetrics)
  completed_workflows : List WorkflowMetrics
  timeout_seconds : Int
deriving DecidableEq

/-- The state of a freshly constructed `WorkflowMonitor` (empty active dict,
empty completed list, 300-second default timeout). -/
def initialMonitorState : WorkflowMonitorState :=
  ⟨[], [], 300⟩

/-- The record built by `start_workflow` (status Running, start time now, no
end time, duration or error yet). -/
def startMetrics (workflow_id zone_name file_path agent model : String)
    (now : Int) : WorkflowMetrics :=
  ⟨workflow_id, zone_name, file_path, agent, model, WorkflowStatus.running,
    now, none, none, none⟩

/-- Embeds `WorkflowMonitor.start_workflow`: builds a Running record and
assigns it into the active dict under `workflow_id`. -/
def start_workflow (s : WorkflowMonitorState)
    (workflow_id zone_name file_path agent model : String) (now : Int) :
    WorkflowMetrics × WorkflowMonitorState :=
  let m := startMetrics workflow_id zone_name file_path agent model now
  (m, { s with active_workflows := alist_set s.active_workflows workflow_id m })

/-- The mutations `complete_workflow` applies to the popped record: stamps the
end time, the derived duration, the terminal status and the error message. -/
def finalizeMetrics (m : WorkflowMetrics) (status : WorkflowStatus)
    (error_message : Option String) (now : Int) : WorkflowMetrics :=
  { m with
    end_time := some now
    duration_seconds := some (now - m.start_time)
    status := status
    error_message := error_message }

/-- Result of one `complete_workflow` call: the returned
`Optional[WorkflowMetrics]`, the new monitor state, and the list of
`send_notification` calls the completion made (level and whether that call
attempted a send). -/
structure CompleteResult where
  result : Option WorkflowMetrics
  state : WorkflowMonitorState
  notifs : List (NotificationLevel × Bool)
deriving DecidableEq

/-- Embeds `WorkflowMonitor.complete_workflow`.  If the id is not in the
active dict it logs a warning and returns `None`, leaving the state unchanged;
otherwise it pops the record, finalizes it, appends it to the completed list,
and sends an Error notification for Failed or a Critical one for Timeout. -/
def complete_workflow (cfg : NotificationConfig) (transport_ok : Bool)
    (s : WorkflowMonitorState) (workflow_id : String) (status : WorkflowStatus)
    (error_message : Option String) (now : Int) : CompleteResult :=
  match alist_get s.active_workflows workflow_id with
  | none => ⟨none, s, []⟩
  | some m =>
      let m2 := finalizeMetrics m status error_message now
      let s2 : WorkflowMonitorState :=
        { s with
          active_workflows := alist_erase s.active_workflows workflow_id
          completed_workflows := s.completed_workflows ++ [m2] }
      let notifs : List (NotificationLevel × Bool) :=
        if status = WorkflowStatus.failed then
          [(NotificationLevel.error,
            (send_notification cfg transport_ok NotificationLevel.error).attempted)]
        else if status = WorkflowStatus.timeout then
          [(NotificationLevel.critical,
            (send_notification cfg transport_ok NotificationLevel.critical).attempted)]
        else []
      ⟨some m2, s2, notifs⟩

/-- Embeds the loop body of `WorkflowMonitor.check_timeouts`: iterates over a
snapshot of the active dict items, and for each record whose elapsed time
exceeds the timeout calls `complete_workflow(id, TIMEOUT)` on the live state
and collects the id. -/
def check_timeouts_go (cfg : NotificationConfig) (transport_ok : Bool)
    (timeoutS : Int) (now : Int) :
    List (String × WorkflowMetrics) → WorkflowMonitorState →
    WorkflowMonitorState × List String
  | [], s => (s, [])
  | (workflow_id, m) :: rest, s =>
      if timeoutS < now - m.start_time then
        let r := complete_workflow cfg transport_ok s workflow_id
          WorkflowStatus.timeout none now
        let rec2 := check_timeouts_go cfg transport_ok timeoutS now rest r.state
        (rec2.1, workflow_id :: rec2.2)
      else
        check_timeouts_go cfg transport_ok timeoutS now rest s

/-- Embeds `WorkflowMonitor.check_timeouts`: sweeps the active dict with the
configured deadline and returns the new state and the list of timed-out ids. -/
def check_timeouts (cfg : NotificationConfig) (transport_ok : Bool)
    (s : WorkflowMonitorState) (now : Int) :
    WorkflowMonitorState × List String :=
  check_timeouts_go cfg transport_ok s.timeout_seconds now s.active_workflows s

/-- Embeds the return value of `WorkflowMonitor.get_health_status`. -/
structure HealthStatus where
  active_workflows : Nat
  completed_workflows : Nat
  oldest_active_workflow : Option Int
  system_status : String
deriving DecidableEq

/-- Embeds `WorkflowMonitor.get_health_status`: counts of active and completed
workflows, the minimum start time among active records (absent when none are
active), and a constant status string. -/
def get_health_status (s : WorkflowMonitorState) : HealthStatus :=
  ⟨s.active_workflows.length,
    s.completed_workflows.length,
    (s.active_workflows.map (fun p => p.2.start_time)).min?,
    "healthy"⟩

/-- Lowercase hexadecimal digit character for a value below 16, as Python's
hex formatting produces. -/
def hexDigitChar (n : Nat) : Char :=
  if n < 10 then Char.ofNat (48 + n) else Char.ofNat (87 + n)

/-- Fixed-width big-endian lowercase hexadecimal digit list of `n`, as in the
zero-padded hex rendering `str` applies to a UUID's 128-bit integer. -/
def hexChars : Nat → Nat → List Char
  | 0, _ => []
  | w + 1, n => hexChars w (n / 16) ++ [hexDigitChar (n % 16)]

/-- Embeds the workflow-id mint `str(uuid.uuid4())[:8]` in
`Agents.process_with_agent`.  `u` is the 128-bit value of the generated UUID
(only `u % 2^128` is meaningful); `str` renders it as 32 lowercase hex digits
with dashes after positions 8, 13, 18 and 23, so the first 8 characters are
exactly the hex digits of the top 32 bits `u / 2^96` (the UUID4 version and
variant bits sit in later positions and do not reach the first 8 characters,
which are uniformly random). -/
def mint_workflow_id (u : Nat) : String :=
  String.mk (hexChars 8 (u % 2 ^ 128 / 2 ^ 96))

/-- Embeds `AgentType`. -/
inductive AgentType where
  | claude_code
  | gemini_cli
  | codex_cli
deriving DecidableEq

/-- Embeds `AgentType.value` (the string payload of the Python enum). -/
def agentValue : AgentType → String
  | .claude_code => "claude_code"
  | .gemini_cli => "gemini_cli"
  | .codex_cli => "codex_cli"

/-- Result of one `Agents.process_with_agent` run: the final monitor state and
the `send_notification` calls made during the run (those of
`complete_workflow` followed by the one in the exception handler, if any). -/
structure ProcessResult where
  state : WorkflowMonitorState
  notifs : List (NotificationLevel × Bool)
deriving DecidableEq

/-- Embeds `Agents.process_with_agent`.  The agent invocation itself is an
external capability, abstracted by `agent_error`: `none` means the invocation
returned normally, `some msg` means it raised an exception rendered as `msg`.
The function mints an id from the UUID value `u`, starts monitoring, runs the
agent, and on success completes the workflow as COMPLETED; on exception it
completes the workflow as FAILED (which itself sends an Error notification)
and then sends a second Error notification from the handler. -/
def process_with_agent (cfg : NotificationConfig) (transport_ok : Bool)
    (s : WorkflowMonitorState) (u : Nat) (agent : AgentType)
    (zone_name file_path : String) (model : Option String)
    (now1 now2 : Int) (agent_error : Option String) : ProcessResult :=
  let workflow_id := mint_workflow_id u
  let s1 := (start_workflow s workflow_id zone_name file_path
    (agentValue agent) (model.getD "default") now1).2
  match agent_error with
  | none =>
      let r := complete_workflow cfg transport_ok s1 workflow_id
        WorkflowStatus.completed none now2
      ⟨r.state, r.notifs⟩
  | some msg =>
      let r := complete_workflow cfg transport_ok s1 workflow_id
        WorkflowStatus.failed (some msg) now2
      ⟨r.state, r.notifs ++
        [(NotificationLevel.error,
          (send_notification cfg transport_ok NotificationLevel.error).attempted)]⟩

/-- Embeds `EventType`. -/
inductive EventType where
  | created
  | modified
  | deleted
  | moved
deriving DecidableEq

/-- Embeds `DropZone` (one configured zone rule). -/
structure DropZone where
  name : String
  file_patterns : List String
  reusable_prompt : String
  zone_dirs : List String
  events : List EventType
  agent : AgentType
  model : Option String
  mcp_server_file : Option String
  color : Option String
  create_zone_dir_if_not_exists : Bool
deriving DecidableEq

/-- Embeds the `event_map` of `DropZoneHandler._should_process_event`, keyed by
the watchdog event-type strings. -/
def event_map : String → Option EventType
  | "created" => some EventType.created
  | "modified" => some EventType.modified
  | "deleted" => some EventType.deleted
  | "moved" => some EventType.moved
  | _ => none

/-- Embeds `DropZoneHandler._should_process_event`: the mapped event type must
be a member of the zone's subscribed events (an unmapped type is never a
member). -/
def should_process_event (zone : DropZone) (event_type : String) : Bool :=
  match event_map event_type with
  | none => false
  | some e => zone.events.contains e

/-- Shell-glob match of a pattern against a character list, as
`fnmatch`/`PurePath.match` interpret the repository's file patterns:
`*` matches any (possibly empty) run of characters, `?` matches exactly one
character, any other character matches itself literally.  The `fuel`
parameter only drives structural recursion; every call site supplies
`pattern.length + str.length + 1`, which each recursive call strictly
stays below (the pattern or the string shrinks at every step). -/
def globMatchAux : Nat → List Char → List Char → Bool
  | 0, _, _ => false
  | _ + 1, [], [] => true
  | _ + 1, [], _ :: _ => false
  | fuel + 1, '*' :: ps, [] => globMatchAux fuel ps []
  | fuel + 1, '*' :: ps, c :: cs =>
      globMatchAux fuel ps (c :: cs) || globMatchAux fuel ('*' :: ps) cs
  | _ + 1, '?' :: _, [] => false
  | fuel + 1, '?' :: ps, _ :: cs => globMatchAux fuel ps cs
  | _ + 1, _ :: _, [] => false
  | fuel + 1, p :: ps, c :: cs => p = c && globMatchAux fuel ps cs

/-- Shell-glob match with sufficient fuel for full backtracking. -/
def globMatch (pattern str : List Char) : Bool :=
  globMatchAux (pattern.length + str.length + 1) pattern str

/-- The final path component (the text after the last `/`), which is what
`PurePath.match` tests a single-component pattern such as `*.txt` against. -/
def fileNameAux : List Char → List Char → List Char
  | [], acc => acc.reverse
  | c :: cs, acc =>
      if c = '/' then fileNameAux cs [] else fileNameAux cs (c :: acc)

/-- The file name of a path string. -/
def fileName (path : String) : String :=
  String.mk (fileNameAux path.data [])

/-- Whether the dropped file matches one of the zone's configured patterns:
`any(path.match(pattern) for pattern in self.drop_zone.file_patterns)` in
`DropZoneHandler.process_file`. -/
def matches_any_pattern (zone : DropZone) (path : String) : Bool :=
  zone.file_patterns.any (fun pat => globMatch pat.data (fileName path).data)

/-- Embeds `PromptArgs`. -/
structure PromptArgs where
  reusable_prompt : String
  file_path : String
  model : Option String
  mcp_server_file : Option String
  zone_name : Option String
  zone_color : Option String
deriving DecidableEq

/-- The `PromptArgs` that `DropZoneHandler.process_file` builds for a matching
file. -/
def mkPromptArgs (zone : DropZone) (path : String) : PromptArgs :=
  ⟨zone.reusable_prompt, path, zone.model, zone.mcp_server_file,
    some zone.name, zone.color⟩

/-- Embeds `DropZoneHandler.process_file` up to the agent dispatch: returns
the `PromptArgs` of the one workflow dispatched for the file, or `none` when
no configured pattern matches (a silent skip). -/
def process_file (zone : DropZone) (path : String) : Option PromptArgs :=
  if matches_any_pattern zone path then some (mkPromptArgs zone path) else none

/-- Embeds the dispatch of a raw watchdog event through
`DropZoneHandler.on_created` / `on_modified` / `on_deleted` / `on_moved`:
directory events are ignored, the event type must pass
`_should_process_event`, and for `moved` events the destination path (when
present) is the subject path.  Returns the `PromptArgs` of the one workflow
dispatched, or `none`. -/
def handle_event (zone : DropZone) (is_directory : Bool) (event_type : String)
    (src_path : String) (dest_path : Option String) : Option PromptArgs :=
  if is_directory then none
  else if should_process_event zone event_type then
    process_file zone
      (if event_type = "moved" then dest_path.getD src_path else src_path)
  else none

/-- One operation against the shared `workflow_monitor`, for reasoning about
whole execution traces. -/
inductive MonitorOp where
  | startOp (workflow_id zone_name file_path agent model : String) (now : Int)
  | completeOp (workflow_id : String) (status : WorkflowStatus)
      (error_message : Option String) (now : Int) (transport_ok : Bool)
  | sweepOp (now : Int) (transport_ok : Bool)
deriving DecidableEq

/-- Applies one monitor operation to the state. -/
def applyOp (cfg : NotificationConfig) (s : WorkflowMonitorState) :
    MonitorOp → WorkflowMonitorState
  | .startOp id z f a m now => (start_workflow s id z f a m now).2
  | .completeOp id st e now t => (complete_workflow cfg t s id st e now).state
  | .sweepOp now t => (check_timeouts cfg t s now).1

/-- Runs a trace of monitor operations from a state. -/
def runOps (cfg : NotificationConfig) (s : WorkflowMonitorState)
    (ops : List MonitorOp) : WorkflowMonitorState :=
  ops.foldl (applyOp cfg) s

/-- The workflow ids minted by the `start` operations of a trace, in order. -/
def startedIds (ops : List MonitorOp) : List String :=
  ops.filterMap (fun op =>
    match op with
    | .startOp id _ _ _ _ _ => some id
    | _ => none)

/-- The number of workflows ever started in a trace. -/
def startedCount (ops : List MonitorOp) : Nat :=
  (startedIds ops).length

def txtRule : DropZone :=
  ⟨"txt", ["*.txt"], "prompts/echo.md", ["zone"], [EventType.created],
    AgentType.claude_code, some "sonnet", none, some "cyan", false⟩

/-- The abstract space the first 8 UUID-string characters are drawn from: the
8-hex-digit renderings of the `2 ^ 32` possible top-32-bit values.  Every
mintable workflow id lies in the range of this function. -/
def uuidPrefixOfFin : Fin (2 ^ 32) → String :=
  fun i => String.mk (hexChars 8 i.val)

/-- The `NotificationConfig` the repository builds when no webhook url is set
in the environment (enabled, minimum level error, no target). -/
def defaultNotificationConfig : NotificationConfig :=
  ⟨none, true, NotificationLevel.error, 10⟩

/-- A `NotificationConfig` with a webhook target configured. -/
def webhookNotificationConfig : NotificationConfig :=
  ⟨some "http://localhost:9000/hook", true, NotificationLevel.error, 10⟩

/-- A monitor state with two active workflows: one started at time 0 and one
started at time 350, against the default 300-second deadline. -/
def sweepWitnessState : WorkflowMonitorState :=
  ⟨[("a", startMetrics "a" "z" "f.txt" "claude_code" "sonnet" 0),
    ("b", startMetrics "b" "z" "g.txt" "claude_code" "sonnet" 350)], [], 300⟩

/-- A trace that starts the same workflow id twice (the id-collision case the
8-character id mint makes possible). -/
def dupStartTrace : List MonitorOp :=
  [MonitorOp.startOp "a" "z" "f.txt" "claude_code" "sonnet" 0,
   MonitorOp.startOp "a" "z" "g.txt" "claude_code" "sonnet" 1]

/-- A trace with distinct start ids exercising start, normal completion, an
unknown completion and a sentinel sweep. -/
def mixedStartTrace : List MonitorOp :=
  [MonitorOp.startOp "a" "z" "f.txt" "claude_code" "sonnet" 0,
   MonitorOp.startOp "b" "z" "g.txt" "claude_code" "sonnet" 10,
   MonitorOp.completeOp "a" WorkflowStatus.completed none 20 true,
   MonitorOp.completeOp "missing" WorkflowStatus.completed none 25 true,
   MonitorOp.sweepOp 400 true]

-- ===========================
-- Association-list lemma kit
-- ===========================

theorem alist_get_erase_self (l : List (String × WorkflowMetrics)) (k : String) :
    alist_get (alist_erase l k) k = none := by
  induction l with
  | nil => rfl
  | cons p rest ih =>
      obtain ⟨k1, v⟩ := p
      by_cases h : k1 = k
      · simpa [alist_erase, h] using ih
      · simpa [alist_erase, alist_get, h] using ih

theorem alist_get_erase_ne (l : List (String × WorkflowMetrics)) (k k2 : String)
    (h : k2 ≠ k) : alist_get (alist_erase l k) k2 = alist_get l k2 := by
  induction l with
  | nil => rfl
  | cons p rest ih =>
      obtain ⟨k1, v⟩ := p
      by_cases h1 : k1 = k
      · subst h1
        have hne : k1 ≠ k2 := fun hh => h hh.symm
        simpa [alist_erase, alist_get, hne] using ih
      · by_cases h2 : k1 = k2
        · subst h2
          simp [alist_erase, alist_get, h1]
        · simpa [alist_erase, alist_get, h1, h2] using ih

theorem alist_erase_eq_filter (l : List (String × WorkflowMetrics)) (k : String) :
    alist_erase l k = l.filter (fun p => decide (p.1 ≠ k)) := by
  induction l with
  | nil => rfl
  | cons p rest ih =>
      obtain ⟨k1, v⟩ := p
      by_cases h : k1 = k
      · simp [alist_erase, h, List.filter, ih]
      · simp [alist_erase, h, List.filter, ih]

theorem mem_alist_erase (l : List (String × WorkflowMetrics)) (k : String)
    (p : String × WorkflowMetrics) :
    p ∈ alist_erase l k ↔ p ∈ l ∧ p.1 ≠ k := by
  rw [alist_erase_eq_filter]
  simp [List.mem_filter]

theorem alist_erase_keys_sublist (l : List (String × WorkflowMetrics))
    (k : String) :
    ((alist_erase l k).map Prod.fst).Sublist (l.map Prod.fst) := by
  rw [alist_erase_eq_filter]
  exact (List.filter_sublist l).map Prod.fst

theorem alist_get_eq_none_iff (l : List (String × WorkflowMetrics))
    (k : String) : alist_get l k = none ↔ k ∉ l.map Prod.fst := by
  induction l with
  | nil => simp [alist_get]
  | cons p rest ih =>
      obtain ⟨k1, v⟩ := p
      by_cases h : k1 = k
      · simp [alist_get, h]
      · simp only [alist_get, if_neg h, List.map_cons, List.mem_cons, ih]
        have hne : ¬k = k1 := fun he => h he.symm
        tauto

theorem alist_get_mem (l : List (String × WorkflowMetrics)) (k : String)
    (v : WorkflowMetrics) (h : alist_get l k = some v) : (k, v) ∈ l := by
  induction l with
  | nil => simp [alist_get] at h
  | cons p rest ih =>
      obtain ⟨k1, w⟩ := p
      by_cases h1 : k1 = k
      · subst h1
        simp [alist_get] at h
        simp [h]
      · simp [alist_get, h1] at h
        exact List.mem_cons_of_mem _ (ih h)

theorem alist_get_of_mem_nodup (l : List (String × WorkflowMetrics))
    (k : String) (v : WorkflowMetrics) (hnd : (l.map Prod.fst).Nodup)
    (h : (k, v) ∈ l) : alist_get l k = some v := by
  induction l with
  | nil => simp at h
  | cons p rest ih =>
      obtain ⟨k1, w⟩ := p
      rcases List.mem_cons.mp h with h0 | h0
      · obtain ⟨hk, hv⟩ := Prod.mk.injEq .. ▸ h0
        simp [alist_get, hk.symm, hv]
      · have hk1 : k1 ≠ k := by
          intro hk1
          subst hk1
          have : k1 ∈ rest.map Prod.fst :=
            List.mem_map.mpr ⟨(k1, v), h0, rfl⟩
          exact (List.nodup_cons.mp hnd).1 this
        simp only [alist_get, if_neg hk1]
        exact ih (List.nodup_cons.mp hnd).2 h0

theorem alist_erase_of_get_none (l : List (String × WorkflowMetrics))
    (k : String) (h : alist_get l k = none) : alist_erase l k = l := by
  induction l with
  | nil => rfl
  | cons p rest ih =>
      obtain ⟨k1, v⟩ := p
      by_cases h1 : k1 = k
      · simp [alist_get, h1] at h
      · simp [alist_get, h1] at h
        simp [alist_erase, h1, ih h]

theorem alist_erase_length (l : List (String × WorkflowMetrics)) (k : String)
    (v : WorkflowMetrics) (hnd : (l.map Prod.fst).Nodup)
    (h : alist_get l k = some v) :
    l.length = (alist_erase l k).length + 1 := by
  induction l with
  | nil => simp [alist_get] at h
  | cons p rest ih =>
      obtain ⟨k1, w⟩ := p
      by_cases h1 : k1 = k
      · subst h1
        have hnone : alist_get rest k1 = none :=
          (alist_get_eq_none_iff rest k1).mpr (List.nodup_cons.mp hnd).1
        simp [alist_erase, alist_erase_of_get_none rest k1 hnone]
      · simp only [alist_get, if_neg h1] at h
        simp only [alist_erase, if_neg h1, List.length_cons]
        rw [ih (List.nodup_cons.mp hnd).2 h]

theorem alist_get_append_of_none (l l2 : List (String × WorkflowMetrics))
    (k : String) (h : alist_get l k = none) :
    alist_get (l ++ l2) k = alist_get l2 k := by
  induction l with
  | nil => rfl
  | cons p rest ih =>
      obtain ⟨k1, v⟩ := p
      by_cases h1 : k1 = k
      · simp [alist_get, h1] at h
      · simp [alist_get, h1] at h ⊢
        exact ih h

theorem alist_get_map_replace (l : List (String × WorkflowMetrics))
    (k : String) (v : WorkflowMetrics) (h : (alist_get l k).isSome) :
    alist_get (l.map (fun p => if p.1 = k then (k, v) else p)) k = some v := by
  induction l with
  | nil => simp [alist_get] at h
  | cons p rest ih =>
      obtain ⟨k1, w⟩ := p
      simp only [List.map_cons]
      by_cases h1 : k1 = k
      · subst h1
        have hh : (if ((k1, w) : String × WorkflowMetrics).1 = k1
            then ((k1, v) : String × WorkflowMetrics) else (k1, w)) = (k1, v) :=
          if_pos rfl
        rw [hh]
        simp [alist_get]
      · have h2 : (alist_get rest k).isSome := by
          simpa [alist_get, h1] using h
        have hh : (if ((k1, w) : String × WorkflowMetrics).1 = k
            then ((k, v) : String × WorkflowMetrics) else (k1, w)) = (k1, w) :=
          if_neg h1
        rw [hh]
        simp only [alist_get, if_neg h1]
        exact ih h2

theorem alist_get_set_self (l : List (String × WorkflowMetrics)) (k : String)
    (v : WorkflowMetrics) : alist_get (alist_set l k v) k = some v := by
  unfold alist_set
  by_cases hc : (alist_get l k).isSome
  · simp only [hc, if_true]
    exact alist_get_map_replace l k v hc
  · have hn : alist_get l k = none := Option.not_isSome_iff_eq_none.mp hc
    simp only [hn, Option.isSome_none, Bool.false_eq_true, if_false]
    rw [alist_get_append_of_none l _ k hn]
    simp [alist_get]

theorem alist_set_keys_of_some (l : List (String × WorkflowMetrics))
    (k : String) (v : WorkflowMetrics) (h : (alist_get l k).isSome) :
    (alist_set l k v).map Prod.fst = l.map Prod.fst := by
  unfold alist_set
  simp only [h, if_true, List.map_map]
  refine List.map_congr_left ?_
  intro p _
  by_cases h1 : p.1 = k
  · simp [Function.comp, h1]
  · simp [Function.comp, h1]

theorem alist_set_keys_of_none (l : List (String × WorkflowMetrics))
    (k : String) (v : WorkflowMetrics) (h : alist_get l k = none) :
    (alist_set l k v).map Prod.fst = l.map Prod.fst ++ [k] := by
  unfold alist_set
  simp [h]

theorem alist_set_length_of_some (l : List (String × WorkflowMetrics))
    (k : String) (v : WorkflowMetrics) (h : (alist_get l k).isSome) :
    (alist_set l k v).length = l.length := by
  unfold alist_set
  simp [h]

theorem alist_get_isSome_of_mem (l : List (String × WorkflowMetrics))
    (k : String) (w : WorkflowMetrics) (h : (k, w) ∈ l) :
    (alist_get l k).isSome := by
  induction l with
  | nil => simp at h
  | cons p rest ih =>
      obtain ⟨k1, v⟩ := p
      by_cases h1 : k1 = k
      · simp [alist_get, h1]
      · rcases List.mem_cons.mp h with h0 | h0
        · exact absurd (congrArg Prod.fst h0).symm h1
        · simpa [alist_get, h1] using ih h0

theorem mem_alist_set_self (l : List (String × WorkflowMetrics)) (k : String)
    (v w : WorkflowMetrics) (h : (k, w) ∈ alist_set l k v) : w = v := by
  unfold alist_set at h
  by_cases hc : (alist_get l k).isSome
  · simp only [hc, if_true] at h
    rcases List.mem_map.mp h with ⟨p, _, hp⟩
    by_cases h1 : p.1 = k
    · rw [if_pos h1] at hp
      exact ((Prod.mk.injEq ..).mp hp).2.symm
    · rw [if_neg h1] at hp
      exact absurd (by rw [hp] : p.1 = k) h1
  · have hn : alist_get l k = none := Option.not_isSome_iff_eq_none.mp hc
    simp only [hn, Option.isSome_none, Bool.false_eq_true, if_false,
      List.mem_append] at h
    rcases h with h | h
    · exact absurd (alist_get_isSome_of_mem l k w h) hc
    · simpa using ((Prod.mk.injEq ..).mp (List.mem_singleton.mp h)).2

-- ===========================
-- complete_workflow structural lemmas
-- ===========================

theorem complete_eq_of_get_none (cfg : NotificationConfig) (t : Bool)
    (s : WorkflowMonitorState) (id : String) (st : WorkflowStatus)
    (e : Option String) (now : Int)
    (h : alist_get s.active_workflows id = none) :
    complete_workflow cfg t s id st e now = ⟨none, s, []⟩ := by
  simp [complete_workflow, h]

theorem complete_result_of_get_some (cfg : NotificationConfig) (t : Bool)
    (s : WorkflowMonitorState) (id : String) (st : WorkflowStatus)
    (e : Option String) (now : Int) (m : WorkflowMetrics)
    (h : alist_get s.active_workflows id = some m) :
    (complete_workflow cfg t s id st e now).result =
      some (finalizeMetrics m st e now) := by
  simp [complete_workflow, h]

theorem complete_active_of_get_some (cfg : NotificationConfig) (t : Bool)
    (s : WorkflowMonitorState) (id : String) (st : WorkflowStatus)
    (e : Option String) (now : Int) (m : WorkflowMetrics)
    (h : alist_get s.active_workflows id = some m) :
    (complete_workflow cfg t s id st e now).state.active_workflows =
      alist_erase s.active_workflows id := by
  simp [complete_workflow, h]

theorem complete_completed_of_get_some (cfg : NotificationConfig) (t : Bool)
    (s : WorkflowMonitorState) (id : String) (st : WorkflowStatus)
    (e : Option String) (now : Int) (m : WorkflowMetrics)
    (h : alist_get s.active_workflows id = some m) :
    (complete_workflow cfg t s id st e now).state.completed_workflows =
      s.completed_workflows ++ [finalizeMetrics m st e now] := by
  simp [complete_workflow, h]

theorem complete_timeout_seconds (cfg : NotificationConfig) (t : Bool)
    (s : WorkflowMonitorState) (id : String) (st : WorkflowStatus)
    (e : Option String) (now : Int) :
    (complete_workflow cfg t s id st e now).state.timeout_seconds =
      s.timeout_seconds := by
  cases h : alist_get s.active_workflows id <;> simp [complete_workflow, h]

theorem complete_notifs_length (cfg : NotificationConfig) (t : Bool)
    (s : WorkflowMonitorState) (id : String) (st : WorkflowStatus)
    (e : Option String) (now : Int) :
    (complete_workflow cfg t s id st e now).notifs.length ≤ 1 := by
  cases h : alist_get s.active_workflows id
  · simp [complete_workflow, h]
  · simp only [complete_workflow, h]
    split
    · simp
    · split <;> simp

theorem complete_completed_mono (cfg : NotificationConfig) (t : Bool)
    (s : WorkflowMonitorState) (id : String) (st : WorkflowStatus)
    (e : Option String) (now : Int) (x : WorkflowMetrics)
    (hx : x ∈ s.completed_workflows) :
    x ∈ (complete_workflow cfg t s id st e now).state.completed_workflows := by
  cases h : alist_get s.active_workflows id
  · simpa [complete_workflow, h] using hx
  · simp [complete_workflow, h]
    exact Or.inl hx

theorem complete_get_none_mono (cfg : NotificationConfig) (t : Bool)
    (s : WorkflowMonitorState) (id id2 : String) (st : WorkflowStatus)
    (e : Option String) (now : Int)
    (h2 : alist_get s.active_workflows id2 = none) :
    alist_get (complete_workflow cfg t s id st e now).state.active_workflows
      id2 = none := by
  cases h : alist_get s.active_workflows id
  · simpa [complete_workflow, h] using h2
  · simp only [complete_workflow, h]
    by_cases hid : id2 = id
    · subst hid
      exact alist_get_erase_self _ _
    · rw [alist_get_erase_ne _ _ _ hid]
      exact h2

theorem complete_mem_active_of_ne (cfg : NotificationConfig) (t : Bool)
    (s : WorkflowMonitorState) (id : String) (st : WorkflowStatus)
    (e : Option String) (now : Int) (p : String × WorkflowMetrics)
    (hp : p ∈ s.active_workflows) (hne : p.1 ≠ id) :
    p ∈ (complete_workflow cfg t s id st e now).state.active_workflows := by
  cases h : alist_get s.active_workflows id
  · simpa [complete_workflow, h] using hp
  · simp only [complete_workflow, h]
    exact (mem_alist_erase _ _ _).mpr ⟨hp, hne⟩

theorem complete_keys_sublist (cfg : NotificationConfig) (t : Bool)
    (s : WorkflowMonitorState) (id : String) (st : WorkflowStatus)
    (e : Option String) (now : Int) :
    ((complete_workflow cfg t s id st e now).state.active_workflows.map
      Prod.fst).Sublist (s.active_workflows.map Prod.fst) := by
  cases h : alist_get s.active_workflows id
  · simp [complete_workflow, h]
  · simp only [complete_workflow, h]
    exact alist_erase_keys_sublist _ _

theorem complete_sum (cfg : NotificationConfig) (t : Bool)
    (s : WorkflowMonitorState) (id : String) (st : WorkflowStatus)
    (e : Option String) (now : Int)
    (hnd : (s.active_workflows.map Prod.fst).Nodup) :
    (complete_workflow cfg t s id st e now).state.active_workflows.length +
      (complete_workflow cfg t s id st e now).state.completed_workflows.length
      = s.active_workflows.length + s.completed_workflows.length := by
  cases h : alist_get s.active_workflows id
  · simp [complete_workflow, h]
  · rename_i m
    have hlen := alist_erase_length s.active_workflows id m hnd h
    simp only [complete_workflow, h]
    simp
    omega

-- ===========================
-- check_timeouts sweep lemmas
-- ===========================

theorem go_completed_mono (cfg : NotificationConfig) (t : Bool)
    (timeoutS now : Int) :
    ∀ (l : List (String × WorkflowMetrics)) (s : WorkflowMonitorState)
      (x : WorkflowMetrics), x ∈ s.completed_workflows →
      x ∈ (check_timeouts_go cfg t timeoutS now l s).1.completed_workflows := by
  intro l
  induction l with
  | nil => intro s x hx; simpa [check_timeouts_go] using hx
  | cons hd rest ih =>
      intro s x hx
      obtain ⟨id0, m0⟩ := hd
      by_cases hto : timeoutS < now - m0.start_time
      · simp only [check_timeouts_go, if_pos hto]
        exact ih _ _ (complete_completed_mono _ _ _ _ _ _ _ _ hx)
      · simp only [check_timeouts_go, if_neg hto]
        exact ih _ _ hx

theorem go_get_none_mono (cfg : NotificationConfig) (t : Bool)
    (timeoutS now : Int) :
    ∀ (l : List (String × WorkflowMetrics)) (s : WorkflowMonitorState)
      (id : String), alist_get s.active_workflows id = none →
      alist_get (check_timeouts_go cfg t timeoutS now l s).1.active_workflows
        id = none := by
  intro l
  induction l with
  | nil => intro s id h; simpa [check_timeouts_go] using h
  | cons hd rest ih =>
      intro s id h
      obtain ⟨id0, m0⟩ := hd
      by_cases hto : timeoutS < now - m0.start_time
      · simp only [check_timeouts_go, if_pos hto]
        exact ih _ _ (complete_get_none_mono _ _ _ _ _ _ _ _ h)
      · simp only [check_timeouts_go, if_neg hto]
        exact ih _ _ h

theorem go_mem_active_mono (cfg : NotificationConfig) (t : Bool)
    (timeoutS now : Int) :
    ∀ (l : List (String × WorkflowMetrics)) (s : WorkflowMonitorState)
      (p : String × WorkflowMetrics), p ∈ s.active_workflows →
      p.1 ∉ l.map Prod.fst →
      p ∈ (check_timeouts_go cfg t timeoutS now l s).1.active_workflows := by
  intro l
  induction l with
  | nil => intro s p hp _; simpa [check_timeouts_go] using hp
  | cons hd rest ih =>
      intro s p hp hkeys
      obtain ⟨id0, m0⟩ := hd
      have hne : p.1 ≠ id0 := by
        intro he
        exact hkeys (by simp [he])
      have hrest : p.1 ∉ rest.map Prod.fst := by
        intro he
        exact hkeys (by simp [he])
      by_cases hto : timeoutS < now - m0.start_time
      · simp only [check_timeouts_go, if_pos hto]
        exact ih _ _ (complete_mem_active_of_ne _ _ _ _ _ _ _ _ hp hne) hrest
      · simp only [check_timeouts_go, if_neg hto]
        exact ih _ _ hp hrest

theorem go_ids_subset (cfg : NotificationConfig) (t : Bool)
    (timeoutS now : Int) :
    ∀ (l : List (String × WorkflowMetrics)) (s : WorkflowMonitorState)
      (id : String), id ∈ (check_timeouts_go cfg t timeoutS now l s).2 →
      id ∈ l.map Prod.fst := by
  intro l
  induction l with
  | nil => intro s id h; simp [check_timeouts_go] at h
  | cons hd rest ih =>
      intro s id h
      obtain ⟨id0, m0⟩ := hd
      by_cases hto : timeoutS < now - m0.start_time
      · simp only [check_timeouts_go, if_pos hto] at h
        rcases List.mem_cons.mp h with he | he
        · simp [he]
        · exact List.mem_cons_of_mem _ (ih _ _ he)
      · simp only [check_timeouts_go, if_neg hto] at h
        exact List.mem_cons_of_mem _ (ih _ _ h)

theorem check_timeouts_go_spec (cfg : NotificationConfig) (t : Bool)
    (timeoutS now : Int) :
    ∀ (l : List (String × WorkflowMetrics)) (s : WorkflowMonitorState),
    (l.map Prod.fst).Nodup →
    (∀ p ∈ l, alist_get s.active_workflows p.1 = some p.2) →
    ∀ p ∈ l,
      (timeoutS < now - p.2.start_time →
        p.1 ∈ (check_timeouts_go cfg t timeoutS now l s).2 ∧
        finalizeMetrics p.2 WorkflowStatus.timeout none now ∈
          (check_timeouts_go cfg t timeoutS now l s).1.completed_workflows ∧
        alist_get
          (check_timeouts_go cfg t timeoutS now l s).1.active_workflows
          p.1 = none) ∧
      (¬ timeoutS < now - p.2.start_time →
        p.1 ∉ (check_timeouts_go cfg t timeoutS now l s).2 ∧
        p ∈ (check_timeouts_go cfg t timeoutS now l s).1.active_workflows) := by
  intro l
  induction l with
  | nil => intro s _ _ p hp; simp at hp
  | cons hd rest ih =>
      intro s hnd hinv p hp
      obtain ⟨id0, m0⟩ := hd
      have hnd2 : id0 ∉ rest.map Prod.fst ∧ (rest.map Prod.fst).Nodup := by
        simpa [List.nodup_cons] using hnd
      have hhd : alist_get s.active_workflows id0 = some m0 :=
        hinv _ (List.mem_cons_self _ _)
      by_cases hto : timeoutS < now - m0.start_time
      · simp only [check_timeouts_go, if_pos hto]
        have hr_active :
            (complete_workflow cfg t s id0 WorkflowStatus.timeout none
              now).state.active_workflows =
              alist_erase s.active_workflows id0 :=
          complete_active_of_get_some _ _ _ _ _ _ _ _ hhd
        have hr_completed :
            (complete_workflow cfg t s id0 WorkflowStatus.timeout none
              now).state.completed_workflows =
              s.completed_workflows ++
                [finalizeMetrics m0 WorkflowStatus.timeout none now] :=
          complete_completed_of_get_some _ _ _ _ _ _ _ _ hhd
        have hinv_rest : ∀ q ∈ rest,
            alist_get (complete_workflow cfg t s id0 WorkflowStatus.timeout
              none now).state.active_workflows q.1 = some q.2 := by
          intro q hq
          have hqne : q.1 ≠ id0 := by
            intro he
            exact hnd2.1 (he ▸ List.mem_map.mpr ⟨q, hq, rfl⟩)
          rw [hr_active, alist_get_erase_ne _ _ _ hqne]
          exact hinv _ (List.mem_cons_of_mem _ hq)
        rcases List.mem_cons.mp hp with hp0 | hp0
        · subst hp0
          refine ⟨fun _ => ⟨List.mem_cons_self _ _, ?_, ?_⟩,
            fun hcon => absurd hto hcon⟩
          · apply go_completed_mono
            rw [hr_completed]
            exact List.mem_append_right _ (List.mem_singleton.mpr rfl)
          · apply go_get_none_mono
            rw [hr_active]
            exact alist_get_erase_self _ _
        · have hres := ih _ hnd2.2 hinv_rest p hp0
          refine ⟨fun hpto => ?_, fun hpto => ?_⟩
          · obtain ⟨h1, h2, h3⟩ := hres.1 hpto
            exact ⟨List.mem_cons_of_mem _ h1, h2, h3⟩
          · obtain ⟨h1, h2⟩ := hres.2 hpto
            refine ⟨fun hmem => ?_, h2⟩
            rcases List.mem_cons.mp hmem with he | he
            · exact hnd2.1 (he ▸ List.mem_map.mpr ⟨p, hp0, rfl⟩)
            · exact h1 he
      · simp only [check_timeouts_go, if_neg hto]
        rcases List.mem_cons.mp hp with hp0 | hp0
        · subst hp0
          refine ⟨fun hcon => absurd hcon hto, fun _ => ⟨fun hmem => ?_, ?_⟩⟩
          · exact hnd2.1 (go_ids_subset cfg t timeoutS now rest s _ hmem)
          · exact go_mem_active_mono cfg t timeoutS now rest s _
              (alist_get_mem _ _ _ hhd) hnd2.1
        · exact ih _ hnd2.2
            (fun q hq => hinv _ (List.mem_cons_of_mem _ hq)) p hp0

theorem go_preserves (cfg : NotificationConfig) (t : Bool)
    (timeoutS now : Int) :
    ∀ (l : List (String × WorkflowMetrics)) (s : WorkflowMonitorState),
    (s.active_workflows.map Prod.fst).Nodup →
    ((check_timeouts_go cfg t timeoutS now l s).1.active_workflows.length +
      (check_timeouts_go cfg t timeoutS now l
        s).1.completed_workflows.length =
      s.active_workflows.length + s.completed_workflows.length) ∧
    ((check_timeouts_go cfg t timeoutS now l s).1.active_workflows.map
      Prod.fst).Sublist (s.active_workflows.map Prod.fst) := by
  intro l
  induction l with
  | nil =>
      intro s _
      simp [check_timeouts_go]
  | cons hd rest ih =>
      intro s hnd
      obtain ⟨id0, m0⟩ := hd
      by_cases hto : timeoutS < now - m0.start_time
      · simp only [check_timeouts_go, if_pos hto]
        have hsub := complete_keys_sublist cfg t s id0 WorkflowStatus.timeout
          none now
        have hnd2 : ((complete_workflow cfg t s id0 WorkflowStatus.timeout
            none now).state.active_workflows.map Prod.fst).Nodup :=
          hnd.sublist hsub
        have hsum := complete_sum cfg t s id0 WorkflowStatus.timeout none now
          hnd
        obtain ⟨ihsum, ihsub⟩ := ih _ hnd2
        exact ⟨by omega, ihsub.trans hsub⟩
      · simp only [check_timeouts_go, if_neg hto]
        exact ih s hnd

theorem runOps_sum (cfg : NotificationConfig) :
    ∀ (ops : List MonitorOp) (s : WorkflowMonitorState),
    (s.active_workflows.map Prod.fst).Nodup →
    (startedIds ops).Nodup →
    (∀ k ∈ s.active_workflows.map Prod.fst, k ∉ startedIds ops) →
    (runOps cfg s ops).active_workflows.length +
      (runOps cfg s ops).completed_workflows.length =
      s.active_workflows.length + s.completed_workflows.length +
        startedCount ops := by
  intro ops
  induction ops with
  | nil =>
      intro s _ _ _
      simp [runOps, startedCount, startedIds]
  | cons op rest ih =>
      intro s hnd hsids hdisj
      have hrun : runOps cfg s (op :: rest) = runOps cfg (applyOp cfg s op)
          rest := by
        simp [runOps]
      rw [hrun]
      cases op with
      | startOp id z f a m now =>
          have hsid_cons : startedIds (MonitorOp.startOp id z f a m now ::
              rest) = id :: startedIds rest := by
            simp [startedIds]
          have hid_started : id ∈ startedIds (MonitorOp.startOp id z f a m
              now :: rest) := by
            rw [hsid_cons]
            exact List.mem_cons_self _ _
          have hid_not_key : id ∉ s.active_workflows.map Prod.fst := by
            intro hmem
            exact hdisj id hmem hid_started
          have hget : alist_get s.active_workflows id = none :=
            (alist_get_eq_none_iff _ _).mpr hid_not_key
          have hsids2 : id ∉ startedIds rest ∧ (startedIds rest).Nodup := by
            simpa [startedIds, List.nodup_cons] using hsids
          have hactive : (applyOp cfg s (MonitorOp.startOp id z f a m
              now)).active_workflows = s.active_workflows ++
              [(id, startMetrics id z f a m now)] := by
            simp [applyOp, start_workflow, alist_set, hget]
          have hcompleted : (applyOp cfg s (MonitorOp.startOp id z f a m
              now)).completed_workflows = s.completed_workflows := by
            simp [applyOp, start_workflow]
          have hkeys : (applyOp cfg s (MonitorOp.startOp id z f a m
              now)).active_workflows.map Prod.fst =
              s.active_workflows.map Prod.fst ++ [id] := by
            rw [hactive]
            simp
          have hnd2 : ((applyOp cfg s (MonitorOp.startOp id z f a m
              now)).active_workflows.map Prod.fst).Nodup := by
            rw [hkeys]
            simp [List.nodup_append, hnd, hid_not_key]
          have hdisj2 : ∀ k ∈ (applyOp cfg s (MonitorOp.startOp id z f a m
              now)).active_workflows.map Prod.fst, k ∉ startedIds rest := by
            intro k hk
            rw [hkeys] at hk
            rcases List.mem_append.mp hk with hk | hk
            · intro hmem
              have hknot := hdisj k hk
              rw [hsid_cons] at hknot
              exact hknot (List.mem_cons_of_mem _ hmem)
            · rw [List.mem_singleton.mp hk]
              exact hsids2.1
          have := ih _ hnd2 hsids2.2 hdisj2
          rw [this, hactive, hcompleted]
          simp [startedCount, startedIds]
          omega
      | completeOp id st e now t =>
          have hsum := complete_sum cfg t s id st e now hnd
          have hsub := complete_keys_sublist cfg t s id st e now
          have hnd2 : ((applyOp cfg s (MonitorOp.completeOp id st e now
              t)).active_workflows.map Prod.fst).Nodup := hnd.sublist hsub
          have hdisj2 : ∀ k ∈ (applyOp cfg s (MonitorOp.completeOp id st e
              now t)).active_workflows.map Prod.fst,
              k ∉ startedIds rest := by
            intro k hk
            have : k ∈ s.active_workflows.map Prod.fst := hsub.mem hk
            intro hmem
            exact hdisj k this (by simpa [startedIds] using hmem)
          have hsids2 : (startedIds rest).Nodup := by
            simpa [startedIds] using hsids
          have := ih _ hnd2 hsids2 hdisj2
          rw [this]
          have hcount : startedCount (MonitorOp.completeOp id st e now t ::
              rest) = startedCount rest := by
            simp [startedCount, startedIds]
          rw [hcount]
          simp only [applyOp] at hsum ⊢
          omega
      | sweepOp now t =>
          obtain ⟨hsum, hsub⟩ := go_preserves cfg t s.timeout_seconds now
            s.active_workflows s hnd
          have hnd2 : ((applyOp cfg s (MonitorOp.sweepOp now
              t)).active_workflows.map Prod.fst).Nodup := hnd.sublist hsub
          have hdisj2 : ∀ k ∈ (applyOp cfg s (MonitorOp.sweepOp now
              t)).active_workflows.map Prod.fst, k ∉ startedIds rest := by
            intro k hk
            have : k ∈ s.active_workflows.map Prod.fst := hsub.mem hk
            intro hmem
            exact hdisj k this (by simpa [startedIds] using hmem)
          have hsids2 : (startedIds rest).Nodup := by
            simpa [startedIds] using hsids
          have := ih _ hnd2 hsids2 hdisj2
          rw [this]
          have hcount : startedCount (MonitorOp.sweepOp now t :: rest) =
              startedCount rest := by
            simp [startedCount, startedIds]
          rw [hcount]
          simp only [applyOp, check_timeouts] at hsum ⊢
          omega

-- ===========================
-- Claim theorems
-- ===========================

/-- C1: when `complete_workflow` is called twice with the same workflow id
(the first call finding the id active), exactly one entry for that id is
appended to the completed history, the completion calls trigger at most one
notification in total (the first call makes at most one `send_notification`
call, the second none), and the second call returns `None`. -/
theorem claim_C1_double_complete (cfg : NotificationConfig) (t1 t2 : Bool)
    (s : WorkflowMonitorState) (id : String) (m : WorkflowMetrics)
    (st1 st2 : WorkflowStatus) (e1 e2 : Option String) (n1 n2 : Int)
    (h : alist_get s.active_workflows id = some m) :
    (complete_workflow cfg t1 s id st1 e1 n1).result =
      some (finalizeMetrics m st1 e1 n1) ∧
    (complete_workflow cfg t2 (complete_workflow cfg t1 s id st1 e1 n1).state
      id st2 e2 n2).result = none ∧
    (complete_workflow cfg t2 (complete_workflow cfg t1 s id st1 e1 n1).state
      id st2 e2 n2).state.completed_workflows =
      s.completed_workflows ++ [finalizeMetrics m st1 e1 n1] ∧
    (complete_workflow cfg t1 s id st1 e1 n1).notifs.length ≤ 1 ∧
    (complete_workflow cfg t2 (complete_workflow cfg t1 s id st1 e1 n1).state
      id st2 e2 n2).notifs = [] := by
  have h1a := complete_result_of_get_some cfg t1 s id st1 e1 n1 m h
  have h1b := complete_active_of_get_some cfg t1 s id st1 e1 n1 m h
  have h1c := complete_completed_of_get_some cfg t1 s id st1 e1 n1 m h
  have hnone : alist_get
      (complete_workflow cfg t1 s id st1 e1 n1).state.active_workflows id =
      none := by
    rw [h1b]
    exact alist_get_erase_self _ _
  have h2 := complete_eq_of_get_none cfg t2
    (complete_workflow cfg t1 s id st1 e1 n1).state id st2 e2 n2 hnone
  refine ⟨h1a, ?_, ?_, complete_notifs_length cfg t1 s id st1 e1 n1, ?_⟩
  · rw [h2]
  · rw [h2]
    exact h1c
  · rw [h2]

/-- C1 witness: concrete double completion of the active workflow `a`. -/
theorem claim_C1_double_complete_witness :
    (alist_get sweepWitnessState.active_workflows "a" =
      some (startMetrics "a" "z" "f.txt" "claude_code" "sonnet" 0)) ∧
    ((complete_workflow webhookNotificationConfig true
      (complete_workflow webhookNotificationConfig true sweepWitnessState "a"
        WorkflowStatus.completed none 10).state "a" WorkflowStatus.timeout
      none 11).result = none ∧
    (complete_workflow webhookNotificationConfig true
      (complete_workflow webhookNotificationConfig true sweepWitnessState "a"
        WorkflowStatus.completed none 10).state "a" WorkflowStatus.timeout
      none 11).state.completed_workflows =
      sweepWitnessState.completed_workflows ++
        [finalizeMetrics (startMetrics "a" "z" "f.txt" "claude_code" "sonnet"
          0) WorkflowStatus.completed none 10]) :=
  ⟨by decide,
    (claim_C1_double_complete webhookNotificationConfig true true
      sweepWitnessState "a"
      (startMetrics "a" "z" "f.txt" "claude_code" "sonnet" 0)
      WorkflowStatus.completed WorkflowStatus.timeout none none 10 11
      (by decide)).2.1,
    (claim_C1_double_complete webhookNotificationConfig true true
      sweepWitnessState "a"
      (startMetrics "a" "z" "f.txt" "claude_code" "sonnet" 0)
      WorkflowStatus.completed WorkflowStatus.timeout none none 10 11
      (by decide)).2.2.1⟩

/-- C2: completing a workflow id that is not in the active set returns `None`
(the embedding is a total function, so no exception is possible), makes no
notification call, and leaves the whole monitor state - active set and
completed history - unchanged, so no finalized record is ever overwritten. -/
theorem claim_C2_unknown_completion (cfg : NotificationConfig) (t : Bool)
    (s : WorkflowMonitorState) (id : String) (st : WorkflowStatus)
    (e : Option String) (now : Int)
    (h : alist_get s.active_workflows id = none) :
    (complete_workflow cfg t s id st e now).result = none ∧
    (complete_workflow cfg t s id st e now).state = s ∧
    (complete_workflow cfg t s id st e now).notifs = [] := by
  rw [complete_eq_of_get_none cfg t s id st e now h]
  exact ⟨rfl, rfl, rfl⟩

/-- C2 witness: completing the never-started id `zz`. -/
theorem claim_C2_unknown_completion_witness :
    (alist_get sweepWitnessState.active_workflows "zz" = none) ∧
    ((complete_workflow webhookNotificationConfig true sweepWitnessState "zz"
      WorkflowStatus.completed none 10).result = none ∧
    (complete_workflow webhookNotificationConfig true sweepWitnessState "zz"
      WorkflowStatus.completed none 10).state = sweepWitnessState ∧
    (complete_workflow webhookNotificationConfig true sweepWitnessState "zz"
      WorkflowStatus.completed none 10).notifs = []) :=
  ⟨by decide,
    claim_C2_unknown_completion webhookNotificationConfig true
      sweepWitnessState "zz" WorkflowStatus.completed none 10 (by decide)⟩

/-- C4: `send_notification` attempts a send exactly when notifications are
enabled, a webhook target is configured, and the level reaches the configured
minimum in the order info < warning < error < critical; and the returned Bool
is true exactly when a send was attempted and the transport succeeded (so a
disabled/unconfigured/filtered call returns false without attempting). -/
theorem claim_C4_notification_gate (cfg : NotificationConfig) (t : Bool)
    (level : NotificationLevel) :
    (send_notification cfg t level).attempted =
      (cfg.enabled && webhook_configured cfg &&
        decide (level_order cfg.min_level ≤ level_order level)) ∧
    (send_notification cfg t level).delivered =
      ((send_notification cfg t level).attempted && t) := by
  unfold send_notification
  by_cases h1 : cfg.enabled
  · by_cases h2 : webhook_configured cfg
    · by_cases h3 : level_order level < level_order cfg.min_level
      · have h4 : ¬ level_order cfg.min_level ≤ level_order level := by omega
        simp [h1, h2, h3, h4]
      · have h4 : level_order cfg.min_level ≤ level_order level := by omega
        simp [h1, h2, h3, h4]
    · simp [h1, h2]
  · simp [h1]

/-- C5: notification delivery failure is invisible to workflow state: the
result and the state of `complete_workflow` are identical whether the
transport fails or succeeds (the record's terminal status, timestamps and
history entry do not depend on delivery), and a failing transport makes
`send_notification` return false rather than raise (the embedding is total;
the Python except-block catches the transport exception). -/
theorem claim_C5_notification_isolation (cfg : NotificationConfig)
    (s : WorkflowMonitorState) (id : String) (st : WorkflowStatus)
    (e : Option String) (now : Int) (level : NotificationLevel) :
    (complete_workflow cfg false s id st e now).result =
      (complete_workflow cfg true s id st e now).result ∧
    (complete_workflow cfg false s id st e now).state =
      (complete_workflow cfg true s id st e now).state ∧
    (send_notification cfg false level).delivered = false := by
  refine ⟨?_, ?_, ?_⟩
  · cases h : alist_get s.active_workflows id <;> simp [complete_workflow, h]
  · cases h : alist_get s.active_workflows id <;> simp [complete_workflow, h]
  · unfold send_notification
    split
    · rfl
    · split <;> rfl

/-- C3: on a sweep of `check_timeouts`, every active record whose elapsed
time strictly exceeds the deadline is finalized with status timeout (its
finalized record, with the derived duration, lands in the completed history,
its id is removed from the active set and is in the returned list), and every
active record whose elapsed time does not exceed the deadline is returned
unchanged in the active set (hence still Running) and is not in the returned
list. -/
theorem claim_C3_sentinel_sweep (cfg : NotificationConfig) (t : Bool)
    (s : WorkflowMonitorState) (now : Int)
    (hnd : (s.active_workflows.map Prod.fst).Nodup) :
    ∀ id m, (id, m) ∈ s.active_workflows →
      (s.timeout_seconds < now - m.start_time →
        id ∈ (check_timeouts cfg t s now).2 ∧
        finalizeMetrics m WorkflowStatus.timeout none now ∈
          (check_timeouts cfg t s now).1.completed_workflows ∧
        alist_get (check_timeouts cfg t s now).1.active_workflows id =
          none) ∧
      (¬ s.timeout_seconds < now - m.start_time →
        id ∉ (check_timeouts cfg t s now).2 ∧
        (id, m) ∈ (check_timeouts cfg t s now).1.active_workflows) := by
  intro id m hmem
  have hinv : ∀ p ∈ s.active_workflows,
      alist_get s.active_workflows p.1 = some p.2 := by
    intro p hp
    exact alist_get_of_mem_nodup _ _ _ hnd (by simpa using hp)
  exact check_timeouts_go_spec cfg t s.timeout_seconds now s.active_workflows
    s hnd hinv (id, m) hmem

/-- C3 witness: a sweep at time 400 over one record started at 0 (times out)
and one started at 350 (stays active). -/
theorem claim_C3_sentinel_sweep_witness :
    ((sweepWitnessState.active_workflows.map Prod.fst).Nodup ∧
      ("a", startMetrics "a" "z" "f.txt" "claude_code" "sonnet" 0) ∈
        sweepWitnessState.active_workflows ∧
      ("b", startMetrics "b" "z" "g.txt" "claude_code" "sonnet" 350) ∈
        sweepWitnessState.active_workflows ∧
      sweepWitnessState.timeout_seconds <
        400 - (startMetrics "a" "z" "f.txt" "claude_code" "sonnet"
          0).start_time ∧
      ¬ sweepWitnessState.timeout_seconds <
        400 - (startMetrics "b" "z" "g.txt" "claude_code" "sonnet"
          350).start_time) ∧
    ("a" ∈ (check_timeouts webhookNotificationConfig true sweepWitnessState
        400).2 ∧
      finalizeMetrics (startMetrics "a" "z" "f.txt" "claude_code" "sonnet" 0)
        WorkflowStatus.timeout none 400 ∈
        (check_timeouts webhookNotificationConfig true sweepWitnessState
          400).1.completed_workflows ∧
      alist_get (check_timeouts webhookNotificationConfig true
        sweepWitnessState 400).1.active_workflows "a" = none) ∧
    ("b" ∉ (check_timeouts webhookNotificationConfig true sweepWitnessState
        400).2 ∧
      ("b", startMetrics "b" "z" "g.txt" "claude_code" "sonnet" 350) ∈
        (check_timeouts webhookNotificationConfig true sweepWitnessState
          400).1.active_workflows) :=
  ⟨⟨by decide, by decide, by decide, by decide, by decide⟩,
    (claim_C3_sentinel_sweep webhookNotificationConfig true sweepWitnessState
      400 (by decide) "a"
      (startMetrics "a" "z" "f.txt" "claude_code" "sonnet" 0)
      (by decide)).1 (by decide),
    (claim_C3_sentinel_sweep webhookNotificationConfig true sweepWitnessState
      400 (by decide) "b"
      (startMetrics "b" "z" "g.txt" "claude_code" "sonnet" 350)
      (by decide)).2 (by decide)⟩

theorem hexChars_length (w : Nat) : ∀ n : Nat, (hexChars w n).length = w := by
  induction w with
  | zero => intro n; rfl
  | succ w ih =>
      intro n
      simp [hexChars, ih]

theorem mint_mem_range_uuidPrefix (u : Nat) :
    mint_workflow_id u ∈ Set.range uuidPrefixOfFin := by
  have h1 : u % 2 ^ 128 < 2 ^ 128 := Nat.mod_lt _ (by norm_num)
  have h2 : u % 2 ^ 128 / 2 ^ 96 < 2 ^ 32 := by
    refine (Nat.div_lt_iff_lt_mul (by norm_num)).mpr ?_
    calc u % 2 ^ 128 < 2 ^ 128 := h1
      _ = 2 ^ 32 * 2 ^ 96 := by norm_num
  exact ⟨⟨u % 2 ^ 128 / 2 ^ 96, h2⟩, rfl⟩

theorem mint_card_le : Nat.card (Set.range mint_workflow_id) ≤ 2 ^ 32 := by
  have hsub : Set.range mint_workflow_id ⊆ Set.range uuidPrefixOfFin := by
    rintro x ⟨u, rfl⟩
    exact mint_mem_range_uuidPrefix u
  calc Nat.card (Set.range mint_workflow_id)
      ≤ Nat.card (Set.range uuidPrefixOfFin) :=
        Nat.card_mono (Set.finite_range _) hsub
    _ ≤ Nat.card (Fin (2 ^ 32)) := Finite.card_range_le _
    _ = 2 ^ 32 := by rw [Nat.card_eq_fintype_card, Fintype.card_fin]

/-- C6 counterexample: the minted workflow ids `str(uuid.uuid4())[:8]` are
8 hexadecimal characters, so the identifier space has at most `2 ^ 32`
distinct values - strictly fewer than the `2 ^ 48` the claim requires. -/
theorem claim_C6_entropy_counterexample :
    Nat.card (Set.range mint_workflow_id) < 2 ^ 48 :=
  lt_of_le_of_lt mint_card_le (by norm_num)

/-- C6 amended: every minted workflow id is an 8-character hex string, and
the identifier space has at most `2 ^ 32` distinct values (32 bits, not the
claimed 48). -/
theorem claim_C6_entropy_amended :
    Nat.card (Set.range mint_workflow_id) ≤ 2 ^ 32 ∧
    ∀ u : Nat, (mint_workflow_id u).length = 8 :=
  ⟨mint_card_le, fun u => hexChars_length 8 (u % 2 ^ 128 / 2 ^ 96)⟩

/-- C7: a file event is dispatched to a workflow exactly when the event type
is among the zone's subscribed events and the file name matches at least one
of the zone's glob patterns; the dispatched request carries the event's file
path; and on the concrete rule with patterns `*.txt` and events `[created]`,
a modified event on `a.txt` dispatches nothing while a created event on
`a.txt` dispatches exactly the request for `a.txt`. -/
theorem claim_C7_event_routing (zone : DropZone) (et src : String) :
    ((handle_event zone false et src none).isSome =
      (should_process_event zone et && matches_any_pattern zone src)) ∧
    (handle_event zone false et src none =
      if should_process_event zone et && matches_any_pattern zone src
        then some (mkPromptArgs zone src) else none) ∧
    (mkPromptArgs zone src).file_path = src ∧
    handle_event txtRule false "modified" "a.txt" none = none ∧
    handle_event txtRule false "created" "a.txt" none =
      some (mkPromptArgs txtRule "a.txt") := by
  have h2 : handle_event zone false et src none =
      if should_process_event zone et && matches_any_pattern zone src
        then some (mkPromptArgs zone src) else none := by
    unfold handle_event process_file
    simp only [Option.getD_none, ite_self, Bool.false_eq_true, if_false]
    by_cases hs : should_process_event zone et
    · by_cases hp2 : matches_any_pattern zone src
      · simp [hs, hp2]
      · simp [hs, hp2]
    · simp [hs]
  refine ⟨?_, h2, rfl, by decide, by decide⟩
  rw [h2]
  by_cases hs : should_process_event zone et <;>
    by_cases hp2 : matches_any_pattern zone src <;> simp [hs, hp2]

/-- C8 counterexample: starting the same workflow id twice silently
overwrites the first record, so after the trace
`[start "a", start "a"]` the health surface reports 1 active + 0 completed
while 2 workflows were started - the claimed conservation fails. -/
theorem claim_C8_health_counterexample :
    (get_health_status (runOps defaultNotificationConfig initialMonitorState
      dupStartTrace)).active_workflows +
    (get_health_status (runOps defaultNotificationConfig initialMonitorState
      dupStartTrace)).completed_workflows ≠ startedCount dupStartTrace := by
  decide

/-- C8 amended: provided the workflow ids minted by the start operations of a
trace are pairwise distinct, the health surface's active count plus completed
count after running the trace from a fresh monitor equals the number of
workflows ever started. -/
theorem claim_C8_health_conservation (cfg : NotificationConfig)
    (ops : List MonitorOp) (h : (startedIds ops).Nodup) :
    (get_health_status (runOps cfg initialMonitorState
      ops)).active_workflows +
    (get_health_status (runOps cfg initialMonitorState
      ops)).completed_workflows = startedCount ops := by
  have hsum := runOps_sum cfg ops initialMonitorState
    (by simp [initialMonitorState]) h (by simp [initialMonitorState])
  simpa [get_health_status, initialMonitorState] using hsum

/-- C8 witness: a distinct-id trace with starts, a completion, an unknown
completion and a sweep. -/
theorem claim_C8_health_conservation_witness :
    (startedIds mixedStartTrace).Nodup ∧
    (get_health_status (runOps defaultNotificationConfig initialMonitorState
      mixedStartTrace)).active_workflows +
    (get_health_status (runOps defaultNotificationConfig initialMonitorState
      mixedStartTrace)).completed_workflows = startedCount mixedStartTrace :=
  ⟨by decide,
    claim_C8_health_conservation defaultNotificationConfig mixedStartTrace
      (by decide)⟩

/-- C9: when the agent invocation raises, the failure path of
`process_with_agent` makes exactly two `send_notification` calls at level
Error - one inside `complete_workflow` finalizing the record as Failed, one
in the exception handler afterwards - and appends exactly the Failed record
to the completed history. -/
theorem claim_C9_double_error_notification (cfg : NotificationConfig)
    (t : Bool) (s : WorkflowMonitorState) (u : Nat) (agent : AgentType)
    (zone file : String) (model : Option String) (now1 now2 : Int)
    (msg : String) :
    (process_with_agent cfg t s u agent zone file model now1 now2
      (some msg)).notifs =
      [(NotificationLevel.error,
        (send_notification cfg t NotificationLevel.error).attempted),
       (NotificationLevel.error,
        (send_notification cfg t NotificationLevel.error).attempted)] ∧
    (process_with_agent cfg t s u agent zone file model now1 now2
      (some msg)).state.completed_workflows =
      s.completed_workflows ++
        [finalizeMetrics (startMetrics (mint_workflow_id u) zone file
          (agentValue agent) (model.getD "default") now1)
          WorkflowStatus.failed (some msg) now2] := by
  have hget : alist_get (alist_set s.active_workflows (mint_workflow_id u)
      (startMetrics (mint_workflow_id u) zone file (agentValue agent)
        (model.getD "default") now1)) (mint_workflow_id u) =
      some (startMetrics (mint_workflow_id u) zone file (agentValue agent)
        (model.getD "default") now1) :=
    alist_get_set_self _ _ _
  constructor
  · simp [process_with_agent, start_workflow, complete_workflow, hget]
  · simp [process_with_agent, start_workflow, complete_workflow, hget]

/-- C10: starting a workflow under an id already in the active set silently
replaces the prior record: the active set keeps its size, the id now maps to
the fresh Running record, any entry under that id is the fresh record (the
prior one is in neither the active set nor the untouched completed history),
and a later completion finalizes and archives only the newer record. -/
theorem claim_C10_start_overwrites (cfg : NotificationConfig) (t : Bool)
    (s : WorkflowMonitorState) (id : String) (mOld : WorkflowMetrics)
    (z f a mo : String) (now now2 : Int) (st : WorkflowStatus)
    (e : Option String)
    (h : alist_get s.active_workflows id = some mOld) :
    alist_get (start_workflow s id z f a mo now).2.active_workflows id =
      some (startMetrics id z f a mo now) ∧
    (start_workflow s id z f a mo now).2.active_workflows.length =
      s.active_workflows.length ∧
    (start_workflow s id z f a mo now).2.completed_workflows =
      s.completed_workflows ∧
    (∀ w, (id, w) ∈ (start_workflow s id z f a mo now).2.active_workflows →
      w = startMetrics id z f a mo now) ∧
    (complete_workflow cfg t (start_workflow s id z f a mo now).2 id st e
      now2).result =
      some (finalizeMetrics (startMetrics id z f a mo now) st e now2) ∧
    (complete_workflow cfg t (start_workflow s id z f a mo now).2 id st e
      now2).state.completed_workflows =
      s.completed_workflows ++
        [finalizeMetrics (startMetrics id z f a mo now) st e now2] := by
  have hIsSome : (alist_get s.active_workflows id).isSome := by simp [h]
  have hget2 : alist_get (start_workflow s id z f a mo
      now).2.active_workflows id = some (startMetrics id z f a mo now) := by
    simp only [start_workflow]
    exact alist_get_set_self _ _ _
  refine ⟨hget2, ?_, rfl, ?_, ?_, ?_⟩
  · simp only [start_workflow]
    exact alist_set_length_of_some _ _ _ hIsSome
  · intro w hw
    exact mem_alist_set_self _ _ _ _ (by simpa [start_workflow] using hw)
  · exact complete_result_of_get_some _ _ _ _ _ _ _ _ hget2
  · rw [complete_completed_of_get_some _ _ _ _ _ _ _ _ hget2]
    rfl

/-- C10 witness: restarting the active id `a` and then completing it. -/
theorem claim_C10_start_overwrites_witness :
    (alist_get sweepWitnessState.active_workflows "a" =
      some (startMetrics "a" "z" "f.txt" "claude_code" "sonnet" 0)) ∧
    (alist_get (start_workflow sweepWitnessState "a" "z2" "h.txt"
      "gemini_cli" "default" 100).2.active_workflows "a" =
      some (startMetrics "a" "z2" "h.txt" "gemini_cli" "default" 100) ∧
    (complete_workflow webhookNotificationConfig true
      (start_workflow sweepWitnessState "a" "z2" "h.txt" "gemini_cli"
        "default" 100).2 "a" WorkflowStatus.completed none 110).result =
      some (finalizeMetrics (startMetrics "a" "z2" "h.txt" "gemini_cli"
        "default" 100) WorkflowStatus.completed none 110)) :=
  ⟨by decide,
    (claim_C10_start_overwrites webhookNotificationConfig true
      sweepWitnessState "a"
      (startMetrics "a" "z" "f.txt" "claude_code" "sonnet" 0)
      "z2" "h.txt" "gemini_cli" "default" 100 110 WorkflowStatus.completed
      none (by decide)).1,
    (claim_C10_start_overwrites webhookNotificationConfig true
      sweepWitnessState "a"
      (startMetrics "a" "z" "f.txt" "claude_code" "sonnet" 0)
      "z2" "h.txt" "gemini_cli" "default" 100 110 WorkflowStatus.completed
      none (by decide)).2.2.2.2.1⟩
